import Mathlib

/-!
Verification development for the docker-hub-readme-mcp-server repository.

The TypeScript sources are embedded shallowly: pure functions become Lean
functions, stateful code threads an explicit state value, machine integers
become Nat, and fallible code returns Except.  Components whose
implementation files are absent from the source tree (the in-memory cache
service and the retry / HTTP-error classification engine) are modelled from
the natural-language specification; each such definition carries a doc
comment starting with "Modelled from the spec:".
-/

namespace DockerHubMcp

/-- JS-style whitespace test: models the regex class \s restricted to the
ASCII range (space, tab, newline, carriage return, vertical tab, form feed). -/
def isWs (c : Char) : Bool :=
  c = ' ' || c = '\t' || c = '\n' || c = '\r' || c = '\x0b' || c = '\x0c'

theorem length_dropWhile_le_self (p : α → Bool) (l : List α) :
    (l.dropWhile p).length ≤ l.length := by
  induction l with
  | nil => simp [List.dropWhile]
  | cons a l ih =>
    rw [List.dropWhile_cons]
    split
    · exact Nat.le_succ_of_le ih
    · simp

/-- Drop leading and trailing whitespace from a character list
(models JavaScript String.prototype.trim). -/
def trimChars (l : List Char) : List Char :=
  ((l.dropWhile isWs).reverse.dropWhile isWs).reverse

/-- JS trim on strings. -/
def jsTrim (s : String) : String := String.mk (trimChars s.data)

/-- Worker for collapseWs; the flag records whether the previous character
was whitespace (its single replacement space is already emitted). -/
def collapseWsAux : Bool → List Char → List Char
  | _, [] => []
  | inRun, c :: rest =>
    if isWs c then
      if inRun then collapseWsAux true rest
      else ' ' :: collapseWsAux true rest
    else c :: collapseWsAux false rest

/-- Collapse every whitespace run to a single space
(models str.replace(/\s+/g, ' ')). -/
def collapseWs (l : List Char) : List Char := collapseWsAux false l

/-- The whitespace normalisation used by deduplicateExamples:
code.replace(/\s+/g, ' ').trim(). -/
def normalizeWs (s : String) : String := String.mk (trimChars (collapseWs s.data))

/-! ## Cache model

The MemoryCache service (src/services/cache.ts) is not present in the
source tree; only its tests and its callers are.  The state below is
modelled from the spec: a CacheEntry is `{value, storedAt, ttl}` and an
entry is visible to `get` iff `now < storedAt + ttl`; `set` stores the
value with the provided TTL or the configured default.  Size accounting
and LRU eviction are not exercised by any claim and are omitted from the
model; time is an explicit `now` field instead of a real-time clock. -/

/-- Modelled from the spec: CacheEntry of the missing cache service,
`{ value, storedAt, ttl }`. -/
structure CacheEntry (V : Type) where
  value : V
  storedAt : Nat
  ttl : Nat
  deriving DecidableEq, Repr

/-- Modelled from the spec: the state of the missing MemoryCache service,
a key/value store with per-entry expiry, a configured default TTL and an
explicit current time. -/
structure CacheState (V : Type) where
  entries : List (String × CacheEntry V)
  defaultTtl : Nat
  now : Nat
  deriving DecidableEq, Repr

/-- Modelled from the spec: `get(key)` of the missing cache service returns
the stored value iff the key is present and `now < storedAt + ttl`. -/
def cacheGet (st : CacheState V) (key : String) : Option V :=
  match st.entries.find? (fun e => e.1 == key) with
  | some (_, entry) =>
    if st.now < entry.storedAt + entry.ttl then some entry.value else none
  | none => none

/-- Modelled from the spec: `set(key, value, ttl?)` of the missing cache
service overwrites any existing entry for the key, stamping the current
time and the provided TTL (or the configured default when omitted). -/
def cacheSet (st : CacheState V) (key : String) (v : V) (ttl : Option Nat) :
    CacheState V :=
  { st with
    entries :=
      (key, ⟨v, st.now, ttl.getD st.defaultTtl⟩) ::
        st.entries.filter (fun e => e.1 != key) }

/-! ## withCache (src/unnamed/part_004, lines 121-151) -/

/-- Observable outcome of one withCache call: the returned/thrown value, the
final cache state, and how many times the fetcher and cache.set ran. -/
structure WithCacheOut (V E : Type) where
  result : Except E V
  state : CacheState V
  fetchCalls : Nat
  setCalls : Nat
  deriving Repr

/-- Cache-miss path of withCache: `const result = await fetcher();
cache.set(cacheKey, result, ttl); return result;` with a rejection
propagating before any set. -/
def withCacheFetch (cacheKey : String) (fetcher : Except E V) (ttl : Option Nat)
    (st : CacheState V) : WithCacheOut V E :=
  match fetcher with
  | .error e => ⟨.error e, st, 1, 0⟩
  | .ok r => ⟨.ok r, cacheSet st cacheKey r ttl, 1, 1⟩

/-- Embedding of withCache (src/unnamed/part_004): check the cache first and
return on a truthy hit, otherwise fetch, store and return.  The JS
truthiness test `if (cached)` is abstracted by the `truthy` parameter. -/
def withCache (truthy : V → Bool) (cacheKey : String) (fetcher : Except E V)
    (ttl : Option Nat) (st : CacheState V) : WithCacheOut V E :=
  match cacheGet st cacheKey with
  | some cached =>
    if truthy cached then ⟨.ok cached, st, 0, 0⟩
    else withCacheFetch cacheKey fetcher ttl st
  | none => withCacheFetch cacheKey fetcher ttl st

/-- C1: if the cache holds a valid (truthy, unexpired) entry for the key,
withCache returns exactly that cached value, the fetcher is never invoked
(call count 0), cache.set is never called and the cache state is unchanged. -/
theorem withCache_hit_no_fetch (truthy : V → Bool) (k : String)
    (fetcher : Except E V) (ttl : Option Nat) (st : CacheState V) (v : V)
    (hget : cacheGet st k = some v) (htruthy : truthy v = true) :
    withCache truthy k fetcher ttl st = ⟨.ok v, st, 0, 0⟩ := by
  simp [withCache, hget, htruthy]

/-- Witness for C1 at a concrete cache holding 42 under "k". -/
theorem withCache_hit_no_fetch_witness :
    cacheGet (⟨[("k", ⟨42, 0, 10⟩)], 100, 0⟩ : CacheState Nat) "k" = some 42 ∧
    withCache (fun _ => true) "k" (Except.error ()) none
        (⟨[("k", ⟨42, 0, 10⟩)], 100, 0⟩ : CacheState Nat) =
      ⟨.ok 42, ⟨[("k", ⟨42, 0, 10⟩)], 100, 0⟩, 0, 0⟩ :=
  ⟨by decide,
   withCache_hit_no_fetch (fun _ => true) "k" (Except.error ()) none
     (⟨[("k", ⟨42, 0, 10⟩)], 100, 0⟩ : CacheState Nat) 42 (by decide) rfl⟩

/-- C2: when the cache holds no entry for the key and the fetcher rejects,
withCache propagates exactly that rejection, never calls cache.set, leaves
the cache state unchanged, and afterwards the cache still holds no entry
for the key. -/
theorem withCache_reject_stores_nothing (truthy : V → Bool) (k : String)
    (e : E) (ttl : Option Nat) (st : CacheState V)
    (hmiss : cacheGet st k = none) :
    withCache truthy k (Except.error e) ttl st = ⟨.error e, st, 1, 0⟩ ∧
    cacheGet (withCache truthy k (Except.error e) ttl st).state k = none := by
  refine ⟨?_, ?_⟩ <;> simp [withCache, withCacheFetch, hmiss]

/-- Witness for C2 at an empty concrete cache. -/
theorem withCache_reject_stores_nothing_witness :
    cacheGet (⟨[], 100, 0⟩ : CacheState Nat) "k" = none ∧
    withCache (fun _ => true) "k" (Except.error 7) none
        (⟨[], 100, 0⟩ : CacheState Nat) =
      ⟨.error 7, ⟨[], 100, 0⟩, 1, 0⟩ :=
  ⟨by decide,
   (withCache_reject_stores_nothing (fun _ => true) "k" 7 none
     (⟨[], 100, 0⟩ : CacheState Nat) (by decide)).1⟩

/-! ## Retry / error-classification engine

The implementation file src/utils/error-handler.ts is absent from the source
tree; only its tests (src/tests/utils/error-handler.test.ts) and its callers
(src/src/services/docker-hub-api.ts) are present.  The engine below is
modelled from the spec (§3 ClassifiedError, §4.2 withRetry). -/

/-- Modelled from the spec: the ClassifiedError tagged union of §3 for the
missing error-handler module: NotFound, RateLimited(retryAfterSeconds?),
ServerError(statusCode), ClientError(statusCode), NetworkFailure, Unknown. -/
inductive ClassifiedError where
  | notFound
  | rateLimited (retryAfterSeconds : Option Nat)
  | serverError (status : Nat)
  | clientError (status : Nat)
  | networkFailure
  | unknown
  deriving DecidableEq, Repr

/-- Modelled from the spec: §4.2 retryability — NotFound and generic client
errors are non-retryable; rate-limited, server (5xx), network failures and
unknown thrown values are retryable. -/
def isRetryable : ClassifiedError → Bool
  | .notFound => false
  | .clientError _ => false
  | .rateLimited _ => true
  | .serverError _ => true
  | .networkFailure => true
  | .unknown => true

/-- Modelled from the spec: §4.2 delay before a retry.  `i` is the 0-based
index of the retry (the n-th retry has i = n-1): a rate-limited failure with
a server-provided retry-after hint waits hint seconds converted to
milliseconds, every other retryable failure waits baseDelayMs * 2 ^ i. -/
def retryDelay (e : ClassifiedError) (baseDelayMs : Nat) (i : Nat) : Nat :=
  match e with
  | .rateLimited (some s) => s * 1000
  | _ => baseDelayMs * 2 ^ i

/-- True when the failure takes the exponential-backoff branch of
retryDelay (no rate-limit retry-after hint). -/
def usesBackoff : ClassifiedError → Bool
  | .rateLimited (some _) => false
  | _ => true

/-- Observable trace of one withRetry call: the final result, how many times
the operation ran, and the delay slept before each retry, in order. -/
structure RetryTrace (V : Type) where
  result : Except ClassifiedError V
  attempts : Nat
  delays : List Nat
  deriving Repr

/-- Modelled from the spec: the attempt loop of §4.2 withRetry.  `op i` is
the outcome of the i-th attempt (0-based), `remaining` the number of retries
still allowed.  A success returns immediately; a non-retryable failure or an
exhausted budget rethrows the last error unchanged; otherwise the engine
records the computed delay and re-invokes the operation. -/
def withRetryAux (op : Nat → Except ClassifiedError V) (baseDelayMs : Nat) :
    Nat → Nat → RetryTrace V
  | i, remaining =>
    match op i with
    | .ok v => ⟨.ok v, 1, []⟩
    | .error e =>
      match remaining with
      | 0 => ⟨.error e, 1, []⟩
      | r + 1 =>
        if isRetryable e then
          let t := withRetryAux op baseDelayMs (i + 1) r
          ⟨t.result, t.attempts + 1, retryDelay e baseDelayMs i :: t.delays⟩
        else ⟨.error e, 1, []⟩

/-- Modelled from the spec: withRetry(operation, maxRetries, baseDelayMs,
label) of §4.2, starting at attempt 0 with a budget of maxRetries retries. -/
def withRetry (op : Nat → Except ClassifiedError V) (maxRetries baseDelayMs : Nat) :
    RetryTrace V :=
  withRetryAux op baseDelayMs 0 maxRetries

theorem withRetryAux_attempts_le (op : Nat → Except ClassifiedError V)
    (base : Nat) (remaining : Nat) :
    ∀ i, (withRetryAux op base i remaining).attempts ≤ remaining + 1 := by
  induction remaining with
  | zero =>
    intro i
    unfold withRetryAux
    cases op i <;> simp
  | succ r ih =>
    intro i
    unfold withRetryAux
    cases op i with
    | ok v => simp
    | error e =>
      by_cases hr : isRetryable e = true
      · simpa [hr] using Nat.succ_le_succ (ih (i + 1))
      · simp only [Bool.not_eq_true] at hr
        simp [hr]

/-- C3: withRetry makes at most maxRetries + 1 attempts, and with
maxRetries = 0 a failing operation makes exactly one call and rethrows the
original error unchanged with no delay slept. -/
theorem withRetry_attempt_bound (op : Nat → Except ClassifiedError V)
    (maxRetries base : Nat) :
    (withRetry op maxRetries base).attempts ≤ maxRetries + 1 ∧
    (∀ e, op 0 = .error e → withRetry op 0 base = ⟨.error e, 1, []⟩) := by
  constructor
  · exact withRetryAux_attempts_le op base maxRetries 0
  · intro e he
    unfold withRetry withRetryAux
    simp [he]

/-- Witness for C3 at a concrete always-failing operation with zero retries. -/
theorem withRetry_attempt_bound_witness :
    (withRetry (fun _ => (Except.error .networkFailure : Except ClassifiedError Nat))
        0 1000).attempts ≤ 1 ∧
    withRetry (fun _ => (Except.error .networkFailure : Except ClassifiedError Nat))
        0 1000 = ⟨.error .networkFailure, 1, []⟩ :=
  ⟨(withRetry_attempt_bound (fun _ => (Except.error .networkFailure :
      Except ClassifiedError Nat)) 0 1000).1,
   (withRetry_attempt_bound (fun _ => (Except.error .networkFailure :
      Except ClassifiedError Nat)) 0 1000).2 .networkFailure rfl⟩

/-- C4 counterexample: a retryable failure sequence of rate-limited errors
carrying a 30-second retry-after hint waits 30000 ms before every retry
(baseDelayMs = 1000, 3 retries), not the 1000/2000/4000 ms the claim
predicts for every retryable failure sequence. -/
theorem withRetry_backoff_counterexample :
    (withRetry (fun _ => (Except.error (.rateLimited (some 30)) :
        Except ClassifiedError Nat)) 3 1000).delays = [30000, 30000, 30000] ∧
    (withRetry (fun _ => (Except.error (.rateLimited (some 30)) :
        Except ClassifiedError Nat)) 3 1000).delays ≠ [1000, 2000, 4000] := by
  constructor <;> decide

theorem retryDelay_of_usesBackoff (e : ClassifiedError)
    (h : usesBackoff e = true) (base i : Nat) :
    retryDelay e base i = base * 2 ^ i := by
  cases e with
  | rateLimited ra => cases ra with
    | none => rfl
    | some s => simp [usesBackoff] at h
  | _ => rfl

theorem withRetryAux_delays (op : Nat → Except ClassifiedError V) (base : Nat)
    (h : ∀ i, ∃ e, op i = .error e ∧ isRetryable e = true ∧ usesBackoff e = true) :
    ∀ remaining i, (withRetryAux op base i remaining).delays =
      (List.range remaining).map (fun j => base * 2 ^ (i + j)) := by
  intro remaining
  induction remaining with
  | zero =>
    intro i
    obtain ⟨e, he, -, -⟩ := h i
    unfold withRetryAux
    simp [he]
  | succ r ih =>
    intro i
    obtain ⟨e, he, hr, hb⟩ := h i
    unfold withRetryAux
    simp only [he, hr, if_true]
    rw [List.range_succ_eq_map, List.map_cons, List.map_map]
    rw [retryDelay_of_usesBackoff e hb base i, ih (i + 1)]
    have hfun : ((fun j => base * 2 ^ (i + j)) ∘ Nat.succ) =
        (fun j => base * 2 ^ (i + 1 + j)) := by
      funext j
      show base * 2 ^ (i + Nat.succ j) = base * 2 ^ (i + 1 + j)
      congr 2
      omega
    rw [hfun]
    norm_num

/-- C4 (amended): within one withRetry call whose failures are retryable and
carry no rate-limit retry-after hint, the delay before the n-th retry
(n starting at 1) is baseDelayMs * 2 ^ (n-1); with baseDelayMs = 1000 and
3 retries the successive waits are exactly 1000, 2000 and 4000 ms. -/
theorem withRetry_backoff_schedule (op : Nat → Except ClassifiedError V)
    (maxRetries base : Nat)
    (h : ∀ i, ∃ e, op i = .error e ∧ isRetryable e = true ∧ usesBackoff e = true) :
    (withRetry op maxRetries base).delays =
      (List.range maxRetries).map (fun j => base * 2 ^ j) := by
  have hmain := withRetryAux_delays op base h maxRetries 0
  simpa [withRetry] using hmain

/-- Witness for the amended C4: persistent network failures with
baseDelayMs = 1000 and 3 retries wait 1000, 2000, 4000 ms. -/
theorem withRetry_backoff_schedule_witness :
    (withRetry (fun _ => (Except.error .networkFailure :
        Except ClassifiedError Nat)) 3 1000).delays = [1000, 2000, 4000] := by
  have hmain := withRetry_backoff_schedule
    (fun _ => (Except.error .networkFailure : Except ClassifiedError Nat)) 3 1000
    (fun _ => ⟨.networkFailure, rfl, rfl, rfl⟩)
  simpa using hmain

/-! ## HTTP-error-to-domain-error mapping -/

/-- Thrown error values across the embedded services, mirroring the error
classes of src/src/types/index.ts: DockerHubMcpError (generic, with message,
code and optional statusCode) and its subclasses ImageNotFoundError,
TagNotFoundError, RateLimitError (optional retryAfter) and NetworkError. -/
inductive DomainErr where
  | imageNotFound (imageName : String)
  | tagNotFound (imageName tag : String)
  | rateLimit (service : String) (retryAfter : Option Nat)
  | network (message : String)
  | generic (message code : String) (statusCode : Option Nat)
  deriving DecidableEq, Repr

/-- The statusCode field the corresponding error class carries
(src/src/types/index.ts: not-found constructors pass 404, RateLimitError
passes 429, NetworkError passes undefined). -/
def errStatusCode : DomainErr → Option Nat
  | .imageNotFound _ => some 404
  | .tagNotFound _ _ => some 404
  | .rateLimit _ _ => some 429
  | .network _ => none
  | .generic _ _ sc => sc

/-- Modelled from the spec: retryability of thrown domain errors per §4.2/§7
of the missing error-handler module — network failures (the class upstream
5xx responses are mapped to) and rate-limit errors are retried, not-found
and other domain errors are not. -/
def errRetryable : DomainErr → Bool
  | .network _ => true
  | .rateLimit _ _ => true
  | _ => false

/-- Modelled from the spec: §4.3 parses the retry-after header "as an
integer number of seconds"; a non-numeric header yields no hint. -/
def parseRetrySeconds (s : String) : Option Nat :=
  if s.data ≠ [] ∧ s.data.all Char.isDigit then
    some (s.data.foldl (fun n c => n * 10 + (c.toNat - 48)) 0)
  else none

/-- Modelled from the spec: handleHttpError of §4.3; the implementation file
src/utils/error-handler.ts is absent from src/ (only its tests and its call
sites in src/src/services/docker-hub-api.ts are).  Given the HTTP status,
the retry-after response header and a context string it produces the domain
error to throw: 404 → ImageNotFoundError, 429 → RateLimitError carrying the
integer-parsed retry-after seconds when the header is present, each of
500/502/503/504 → the retryable server/network error, anything else → a
generic DockerHubMcpError carrying the status code.  The source function
only throws: the returned value here is the thrown error, so the embedding
never returns normally by construction. -/
def handleHttpError (status : Nat) (retryAfterHeader : Option String)
    (context : String) : DomainErr :=
  if status = 404 then .imageNotFound context
  else if status = 429 then
    .rateLimit context (retryAfterHeader.bind parseRetrySeconds)
  else if status = 500 ∨ status = 502 ∨ status = 503 ∨ status = 504 then
    .network ("Server error: " ++ toString status)
  else .generic ("HTTP error: " ++ toString status) "HTTP_ERROR" (some status)

/-- C5: the HTTP-error mapping sends 404 to a not-found error, 429 to a
rate-limit error carrying the parsed integer retry-after seconds exactly
when that header is present, each of 500/502/503/504 to the retryable
server error, and any other non-2xx status to a generic domain error
carrying the status code; every error status yields a thrown error. -/
theorem handleHttpError_classification :
    (∀ h ctx, handleHttpError 404 h ctx = .imageNotFound ctx) ∧
    (∀ ctx s n, parseRetrySeconds s = some n →
      handleHttpError 429 (some s) ctx = .rateLimit ctx (some n)) ∧
    (∀ ctx, handleHttpError 429 none ctx = .rateLimit ctx none) ∧
    (∀ h ctx status,
      (status = 500 ∨ status = 502 ∨ status = 503 ∨ status = 504) →
      handleHttpError status h ctx = .network ("Server error: " ++ toString status) ∧
      errRetryable (handleHttpError status h ctx) = true) ∧
    (∀ h ctx status, ¬(200 ≤ status ∧ status < 300) →
      status ≠ 404 → status ≠ 429 →
      status ≠ 500 → status ≠ 502 → status ≠ 503 → status ≠ 504 →
      handleHttpError status h ctx =
        .generic ("HTTP error: " ++ toString status) "HTTP_ERROR" (some status)) := by
  refine ⟨fun h ctx => rfl, fun ctx s n hs => ?_, fun ctx => rfl,
    fun h ctx status hst => ?_, fun h ctx status _ h404 h429 h500 h502 h503 h504 => ?_⟩
  · simp [handleHttpError, hs]
  · rcases hst with h5 | h5 | h5 | h5 <;> subst h5 <;>
      exact ⟨rfl, rfl⟩
  · simp [handleHttpError, h404, h429, h500, h502, h503, h504]

/-- Witness for C5 at statuses 404, 429 (header "60" and absent), 503, 403. -/
theorem handleHttpError_classification_witness :
    handleHttpError 404 none "nginx" = .imageNotFound "nginx" ∧
    handleHttpError 429 (some "60") "svc" = .rateLimit "svc" (some 60) ∧
    handleHttpError 429 none "svc" = .rateLimit "svc" none ∧
    handleHttpError 503 none "svc" = .network ("Server error: " ++ toString 503) ∧
    errRetryable (handleHttpError 503 none "svc") = true ∧
    handleHttpError 403 none "svc" =
      .generic ("HTTP error: " ++ toString 403) "HTTP_ERROR" (some 403) :=
  ⟨handleHttpError_classification.1 none "nginx",
   handleHttpError_classification.2.1 "svc" "60" 60 (by decide),
   handleHttpError_classification.2.2.1 "svc",
   (handleHttpError_classification.2.2.2.1 none "svc" 503 (by simp)).1,
   (handleHttpError_classification.2.2.2.1 none "svc" 503 (by simp)).2,
   handleHttpError_classification.2.2.2.2 none "svc" 403 (by simp) (by simp)
     (by simp) (by simp) (by simp) (by simp) (by simp)⟩

/-! ## README usage-example extractor (src/unnamed/part_007, class ReadmeParser) -/

/-- UsageExample record of src/src/types/index.ts. -/
structure UsageExample where
  title : String
  description : Option String
  code : String
  language : String
  deriving DecidableEq, Repr

/-- Split a character list on a separator character, keeping empty pieces
(models JavaScript String.prototype.split with a single-char separator). -/
def splitOnChar (sep : Char) : List Char → List (List Char)
  | [] => [[]]
  | c :: rest =>
    let r := splitOnChar sep rest
    if c = sep then [] :: r
    else
      match r with
      | [] => [[c]]
      | h :: t => (c :: h) :: t

/-- content.split('\n'). -/
def splitLines (s : String) : List String := (splitOnChar '\n' s.data).map String.mk

/-- lines.join('\n'). -/
def joinLines (ls : List String) : String :=
  String.mk (List.intercalate ['\n'] (ls.map String.data))

/-- Lowercase a string characterwise (JS toLowerCase on the ASCII range). -/
def lowerStr (s : String) : String := String.mk (s.data.map Char.toLower)

/-- First character of a string equals c. -/
def firstCharIs (s : String) (c : Char) : Bool :=
  match s.data with
  | x :: _ => x = c
  | [] => false

/-- pat occurs as a contiguous substring (JS String.prototype.includes). -/
def listContainsSub (pat : List Char) : List Char → Bool
  | [] => pat.isEmpty
  | c :: rest => pat.isPrefixOf (c :: rest) || listContainsSub pat rest

/-- s.includes(pat). -/
def containsSub (s pat : String) : Bool := listContainsSub pat.data s.data

/-- Number of leading '#' characters (the match of /^#+/). -/
def countLeadingHashes (l : List Char) : Nat := (l.takeWhile (· = '#')).length

/-- Embedding of the header test /^#{1,6}\s/.test(line): one to six leading
hash marks immediately followed by a whitespace character. -/
def isHeaderLine (line : String) : Bool :=
  let n := countLeadingHashes line.data
  1 ≤ n && n ≤ 6 &&
    (match line.data.drop n with
     | c :: _ => isWs c
     | [] => false)

/-- Header depth: (line.match(/^#+/) || [''])[0].length. -/
def headerLevel (line : String) : Nat := countLeadingHashes line.data

/-- Keyword alternation of the first USAGE_SECTION_PATTERNS regex. -/
def usageKeywords : List String :=
  ["usage", "use", "using", "how to use", "getting started", "quick start",
   "example", "examples", "basic usage", "running", "docker run"]

/-- Embedding of
/^#{1,6}\s*(usage|use|using|how to use|getting started|quick start|examples?|basic usage|running|docker run)\s*$/i:
after the leading hashes, the whitespace-trimmed remainder is one of the
keywords, compared case-insensitively. -/
def matchesUsageHeaderPattern (line : String) : Bool :=
  let n := countLeadingHashes line.data
  1 ≤ n && n ≤ 6 &&
    usageKeywords.contains (lowerStr (String.mk (trimChars (line.data.drop n))))

/-- Remaining USAGE_SECTION_PATTERNS keywords: /^usage:?\s*$/i,
/^examples?:?\s*$/i, /^running:?\s*$/i. -/
def plainUsageKeywords : List String := ["usage", "example", "examples", "running"]

/-- Drop one optional leading colon (the :? of the plain patterns). -/
def dropColonOpt : List Char → List Char
  | ':' :: rest => rest
  | l => l

/-- Embedding of /^kw:?\s*$/i for one plain usage keyword. -/
def matchesPlainKw (kw : String) (line : String) : Bool :=
  let l := (lowerStr line).data
  kw.data.isPrefixOf l && (dropColonOpt (l.drop kw.data.length)).all isWs

/-- ReadmeParser.isUsageHeader: the line matches one of the
USAGE_SECTION_PATTERNS. -/
def isUsageHeaderLine (line : String) : Bool :=
  matchesUsageHeaderPattern line ||
    plainUsageKeywords.any (fun kw => matchesPlainKw kw line)

/-- Loop state of ReadmeParser.extractUsageSections: accumulated sections,
the lines of the currently open section, whether a usage section is open,
and the depth at which it opened. -/
structure SegState where
  sections : List String
  current : List String
  inUsage : Bool
  level : Nat
  deriving DecidableEq, Repr

/-- Push the current section onto the section list when nonempty
(`if (currentSection.length > 0) sections.push(currentSection.join('\n'))`). -/
def flushCurrent (st : SegState) : List String :=
  st.sections ++ (if st.current.isEmpty then [] else [joinLines st.current])

/-- One iteration of the extractUsageSections line loop. -/
def segStep (st : SegState) (line : String) : SegState :=
  if isHeaderLine line then
    let lvl := headerLevel line
    if isUsageHeaderLine line then
      { sections := flushCurrent st, current := [line], inUsage := true, level := lvl }
    else if st.inUsage && lvl ≤ st.level then
      { sections := flushCurrent st, current := [], inUsage := false, level := st.level }
    else if st.inUsage then
      { st with current := st.current ++ [line] }
    else st
  else if st.inUsage then { st with current := st.current ++ [line] }
  else st

/-- Initial loop state of extractUsageSections. -/
def segInit : SegState := ⟨[], [], false, 0⟩

/-- ReadmeParser.extractUsageSections: fold the line loop over the document
and flush the still-open section at document end. -/
def extractUsageSections (content : String) : List String :=
  flushCurrent ((splitLines content).foldl segStep segInit)

/-- The backtick character (code-fence delimiter). -/
def backtick : Char := Char.ofNat 96

/-- \w character class: [A-Za-z0-9_]. -/
def isWordChar (c : Char) : Bool := c.isAlphanum || c = '_'

/-- True when the list starts with a triple-backtick fence. -/
def startsWithFence : List Char → Bool
  | b1 :: b2 :: b3 :: _ => b1 = backtick && b2 = backtick && b3 = backtick
  | _ => false

/-- Split at the first triple-backtick fence: (text before, text after the
fence); models the lazy [\s\S]*?``` tail of CODE_BLOCK_PATTERN. -/
def splitAtFence : List Char → Option (List Char × List Char)
  | [] => none
  | c :: rest =>
    if startsWithFence (c :: rest) then some ([], (c :: rest).drop 3)
    else
      match splitAtFence rest with
      | some (a, b) => some (c :: a, b)
      | none => none

theorem splitAtFence_length (l : List Char) :
    ∀ a b, splitAtFence l = some (a, b) → b.length + 3 ≤ l.length := by
  induction l with
  | nil => intro a b h; simp [splitAtFence] at h
  | cons c rest ih =>
    intro a b h
    unfold splitAtFence at h
    by_cases hf : startsWithFence (c :: rest) = true
    · rw [if_pos hf] at h
      match rest, hf with
      | b2 :: b3 :: rest3, _ =>
        simp only [Option.some.injEq, Prod.mk.injEq] at h
        obtain ⟨-, hb⟩ := h
        subst hb
        simp
    · rw [if_neg hf] at h
      cases hr : splitAtFence rest with
      | none => rw [hr] at h; exact absurd h (by simp)
      | some ab =>
        obtain ⟨a0, b0⟩ := ab
        rw [hr] at h
        simp only [Option.some.injEq, Prod.mk.injEq] at h
        obtain ⟨-, hb⟩ := h
        subst hb
        have hrec := ih a0 b0 hr
        simp only [List.length_cons]
        omega

/-- Try to match CODE_BLOCK_PATTERN = /```(\w+)?\n([\s\S]*?)```/ at the head
of the input.  The greedy optional \w+ group can only succeed on the maximal
word-character run (every backtracked shorter run is followed by another
word character, never by the required newline), so the match succeeds iff
the character right after that run is a newline; the language group is the
run (possibly empty = absent group).  Returns (language run, body, rest of
the input after the closing fence). -/
def tryFenceAt (l : List Char) : Option (List Char × List Char × List Char) :=
  if startsWithFence l then
    match (l.drop 3).dropWhile isWordChar with
    | '\n' :: rest3 =>
      match splitAtFence rest3 with
      | some (code, rest4) => some ((l.drop 3).takeWhile isWordChar, code, rest4)
      | none => none
    | _ => none
  else none

theorem tryFenceAt_length (l : List Char) (lang code rest4 : List Char)
    (h : tryFenceAt l = some (lang, code, rest4)) : rest4.length < l.length := by
  unfold tryFenceAt at h
  by_cases hf : startsWithFence l = true
  · rw [if_pos hf] at h
    cases hd : (l.drop 3).dropWhile isWordChar with
    | nil => rw [hd] at h; exact absurd h (by simp)
    | cons c rest2 =>
      rw [hd] at h
      by_cases hc : c = '\n'
      · subst hc
        cases hs : splitAtFence rest2 with
        | none => simp [hs] at h
        | some ab =>
          obtain ⟨code0, r0⟩ := ab
          simp only [hs, Option.some.injEq, Prod.mk.injEq] at h
          obtain ⟨-, -, hr⟩ := h
          subst hr
          have h1 := splitAtFence_length rest2 code0 r0 hs
          have h2 : rest2.length + 1 = ((l.drop 3).dropWhile isWordChar).length := by
            rw [hd]; simp
          have h3 : ((l.drop 3).dropWhile isWordChar).length ≤ (l.drop 3).length :=
            length_dropWhile_le_self _ _
          have h4 : (l.drop 3).length ≤ l.length := by
            simp [List.length_drop]
          have h5 : 3 ≤ l.length := by
            match l, hf with
            | b1 :: b2 :: b3 :: r, _ => simp
          omega
      · match c, hc with
        | c, hc => simp [hc] at h
  · rw [if_neg hf] at h
    exact absurd h (by simp)

/-- Fuelled worker for scanCodeBlocks.  Every step consumes at least one
input character (tryFenceAt_length), so fuel = initial input length makes
the worker total without changing its behaviour. -/
def scanCodeBlocksAux : Nat → Nat → List Char → List (Nat × List Char × List Char)
  | 0, _, _ => []
  | _ + 1, _, [] => []
  | fuel + 1, pos, c :: rest =>
    match tryFenceAt (c :: rest) with
    | some (lang, code, rest4) =>
      (pos, lang, code) ::
        scanCodeBlocksAux fuel (pos + ((c :: rest).length - rest4.length)) rest4
    | none => scanCodeBlocksAux fuel (pos + 1) rest

/-- Global exec loop of the code-block regex over a section: at each input
position try the fence match; on success record (match index, language run,
body) and resume after the match, otherwise advance one character. -/
def scanCodeBlocks (pos : Nat) (l : List Char) : List (Nat × List Char × List Char) :=
  scanCodeBlocksAux l.length pos l

/-- ReadmeParser.normalizeLanguage: fixed alias table, unknown tags pass
through lowercased. -/
def normalizeLanguage (language : String) : String :=
  let normalized := lowerStr language
  if normalized = "sh" then "bash"
  else if normalized = "shell" then "bash"
  else if normalized = "yml" then "yaml"
  else if normalized = "md" then "markdown"
  else if normalized = "py" then "python"
  else if normalized = "js" then "javascript"
  else if normalized = "ts" then "typescript"
  else normalized

/-- ReadmeParser.generateExampleTitle: title inferred from the first code
line and the raw language tag. -/
def generateExampleTitle (code language : String) : String :=
  let firstLine := jsTrim ((splitLines code).headD "")
  if language = "bash" || language = "shell" || language = "sh" then
    if containsSub firstLine "docker pull" then "Pull Image"
    else if containsSub firstLine "docker run" then "Run Container"
    else if containsSub firstLine "docker build" then "Build Image"
    else "Command Line Usage"
  else if language = "dockerfile" then "Dockerfile Example"
  else if language = "yaml" || language = "yml" then
    if containsSub code "version:" &&
        (containsSub code "services:" || containsSub code "docker") then
      "Docker Compose"
    else "Configuration"
  else if language = "json" then "Configuration"
  else if language = "javascript" || language = "js" then "JavaScript Integration"
  else if language = "python" || language = "py" then "Python Integration"
  else "Code Example"

/-- Code punctuation class [{}\[\]();,] of the looksLikeCode heuristics. -/
def codePunct : List Char := ['{', '}', '[', ']', '(', ')', ';', ',']

/-- Dockerfile instruction keywords of looksLikeCode (matched
case-insensitively, each followed by whitespace). -/
def dockerfileKeywords : List String :=
  ["from", "run", "copy", "add", "expose", "cmd", "entrypoint"]

/-- kw followed by at least one whitespace character at the head of l
(the body of /^\s*KW\s+/ after the leading whitespace was dropped). -/
def kwThenWs (l : List Char) (kw : List Char) : Bool :=
  kw.isPrefixOf l &&
    (match l.drop kw.length with
     | c :: _ => isWs c
     | [] => false)

/-- ReadmeParser.looksLikeCode: the codeIndicators regex battery. -/
def looksLikeCode (text : String) : Bool :=
  let lw := text.data.dropWhile isWs
  let lwLower := (lowerStr text).data.dropWhile isWs
  let revw := text.data.reverse.dropWhile isWs
  (match lw with
   | c :: _ => codePunct.contains c
   | [] => false) ||
  (match revw with
   | c :: _ => codePunct.contains c
   | [] => false) ||
  dockerfileKeywords.any (fun kw => kwThenWs lwLower kw.data) ||
  kwThenWs lw "docker".data ||
  (match lw with
   | c :: _ => c = '$'
   | [] => false) ||
  "//".data.isPrefixOf lw ||
  (match lw with
   | c :: _ => c = '#'
   | [] => false)

/-- trimmed.replace(/^[*-]\s*/, ''): strip one leading bullet marker and the
whitespace after it. -/
def stripBullet (s : String) : String :=
  match s.data with
  | c :: rest =>
    if c = '*' || c = '-' then String.mk (rest.dropWhile isWs) else s
  | [] => s

/-- Backward scan of extractExampleDescription over the reversed lines
before the code block: skip blank and header lines, accept the first other
line iff its length is strictly between 10 and 200 and it does not look
like code, otherwise stop with no description. -/
def descFromLines : List String → Option String
  | [] => none
  | l :: rest =>
    let trimmed := jsTrim l
    if trimmed.data.isEmpty || firstCharIs trimmed '#' then descFromLines rest
    else if 10 < trimmed.data.length && trimmed.data.length < 200 &&
        !looksLikeCode trimmed then
      some (stripBullet trimmed)
    else none

/-- ReadmeParser.extractExampleDescription(section, codeBlockIndex). -/
def extractExampleDescription (sectionText : String) (idx : Nat) : Option String :=
  descFromLines ((splitLines (String.mk (sectionText.data.take idx))).reverse)

/-- ReadmeParser.extractCodeBlocksFromSection: run the code-block regex over
the section; an absent language group defaults to "text"; blocks whose body
trims to empty are skipped; the rest become UsageExamples. -/
def extractCodeBlocksFromSection (sectionText : String) : List UsageExample :=
  (scanCodeBlocks 0 sectionText.data).filterMap fun m =>
    let language := if m.2.1.isEmpty then "text" else String.mk m.2.1
    let cleanCode := jsTrim (String.mk m.2.2)
    if cleanCode.data.isEmpty then none
    else
      some { title := generateExampleTitle cleanCode language,
             description := extractExampleDescription sectionText m.1,
             code := cleanCode,
             language := normalizeLanguage language }

/-- Accumulator loop of ReadmeParser.deduplicateExamples: keep an example
iff its whitespace-normalized code hash was not seen before. -/
def dedupeAux : List UsageExample → List String → List UsageExample
  | [], _ => []
  | e :: rest, seen =>
    if seen.contains (normalizeWs e.code) then dedupeAux rest seen
    else e :: dedupeAux rest (normalizeWs e.code :: seen)

/-- ReadmeParser.deduplicateExamples. -/
def deduplicateExamples (examples : List UsageExample) : List UsageExample :=
  dedupeAux examples []

/-- ReadmeParser.parseUsageExamples: early-return on includeExamples=false
or empty content, else extract per-section code blocks in document order,
deduplicate, and cap at 10. -/
def parseUsageExamples (readmeContent : String) (includeExamples : Bool) :
    List UsageExample :=
  if !includeExamples || readmeContent.data.isEmpty then []
  else
    (deduplicateExamples
      ((extractUsageSections readmeContent).map extractCodeBlocksFromSection).flatten).take 10

theorem dedupeAux_sublist (l : List UsageExample) :
    ∀ seen, List.Sublist (dedupeAux l seen) l := by
  induction l with
  | nil => intro seen; simp [dedupeAux]
  | cons e rest ih =>
    intro seen
    unfold dedupeAux
    by_cases h : seen.contains (normalizeWs e.code) = true
    · rw [if_pos h]
      exact (ih seen).cons e
    · rw [if_neg h]
      exact (ih _).cons₂ e

theorem dedupeAux_fresh (l : List UsageExample) : ∀ seen,
    (∀ e ∈ dedupeAux l seen, seen.contains (normalizeWs e.code) = false) ∧
    (dedupeAux l seen).Pairwise
      (fun a b => normalizeWs a.code ≠ normalizeWs b.code) := by
  induction l with
  | nil => intro seen; simp [dedupeAux]
  | cons e rest ih =>
    intro seen
    unfold dedupeAux
    by_cases h : seen.contains (normalizeWs e.code) = true
    · rw [if_pos h]
      exact ih seen
    · rw [if_neg h]
      have hb : seen.contains (normalizeWs e.code) = false := by
        simpa using h
      refine ⟨?_, ?_⟩
      · intro f hf
        rcases List.mem_cons.mp hf with hfe | hft
        · subst hfe; exact hb
        · have := (ih (normalizeWs e.code :: seen)).1 f hft
          simp only [List.contains_cons, Bool.or_eq_false_iff] at this
          exact this.2
      · refine List.Pairwise.cons ?_ (ih _).2
        intro f hft
        have := (ih (normalizeWs e.code :: seen)).1 f hft
        simp only [List.contains_cons, Bool.or_eq_false_iff, beq_eq_false_iff_ne] at this
        exact fun heq => this.1 (heq ▸ rfl)

theorem dedupeAux_complete (l : List UsageExample) : ∀ seen, ∀ e ∈ l,
    seen.contains (normalizeWs e.code) = true ∨
    ∃ e1 ∈ dedupeAux l seen, normalizeWs e1.code = normalizeWs e.code := by
  induction l with
  | nil => intro seen e he; simp at he
  | cons f rest ih =>
    intro seen e he
    unfold dedupeAux
    by_cases hf : seen.contains (normalizeWs f.code) = true
    · rw [if_pos hf]
      rcases List.mem_cons.mp he with hef | her
      · exact Or.inl (hef ▸ hf)
      · exact ih seen e her
    · rw [if_neg hf]
      rcases List.mem_cons.mp he with hef | her
      · exact Or.inr ⟨f, List.mem_cons_self f _, by rw [hef]⟩
      · rcases ih (normalizeWs f.code :: seen) e her with hc | ⟨e1, he1, heq⟩
        · simp only [List.contains_cons, Bool.or_eq_true, beq_iff_eq] at hc
          rcases hc with hc | hc
          · exact Or.inr ⟨f, List.mem_cons_self f _, hc.symm⟩
          · exact Or.inl hc
        · exact Or.inr ⟨e1, List.mem_cons_of_mem f he1, heq⟩

/-- C6: the output of parseUsageExamples contains no two examples whose code
strings agree after collapsing whitespace runs and trimming, has length at
most 10, and is an order-preserving sublist of the full extraction in
document order; moreover every extracted code hash is still represented
after deduplication (the survivor being its first occurrence). -/
theorem parseUsageExamples_dedup_cap (content : String) (inc : Bool) :
    (parseUsageExamples content inc).Pairwise
      (fun a b => normalizeWs a.code ≠ normalizeWs b.code) ∧
    (parseUsageExamples content inc).length ≤ 10 ∧
    List.Sublist (parseUsageExamples content inc)
      ((extractUsageSections content).map extractCodeBlocksFromSection).flatten ∧
    (∀ e ∈ ((extractUsageSections content).map extractCodeBlocksFromSection).flatten,
      ∃ e1 ∈ deduplicateExamples
          ((extractUsageSections content).map extractCodeBlocksFromSection).flatten,
        normalizeWs e1.code = normalizeWs e.code) := by
  refine ⟨?_, ?_, ?_, ?_⟩
  · unfold parseUsageExamples
    by_cases hg : (!inc || content.data.isEmpty) = true
    · simp [hg]
    · rw [if_neg hg]
      exact List.Pairwise.sublist (List.take_sublist _ _)
        (dedupeAux_fresh _ []).2
  · unfold parseUsageExamples
    by_cases hg : (!inc || content.data.isEmpty) = true
    · simp [hg]
    · rw [if_neg hg]
      exact List.length_take_le _ _
  · unfold parseUsageExamples
    by_cases hg : (!inc || content.data.isEmpty) = true
    · simp [hg]
    · rw [if_neg hg]
      exact (List.take_sublist _ _).trans (dedupeAux_sublist _ [])
  · intro e he
    rcases dedupeAux_complete _ [] e he with hc | hc
    · simp [List.contains] at hc
    · exact hc

/-- C7: parseUsageExamples returns the empty list whenever includeExamples
is false or the content is empty.  The whole extraction pipeline is a total
function, so the embedding returns a list for every input: the try/catch of
the source, which converts any internal failure into an empty list, has no
failure left to observe. -/
theorem parseUsageExamples_guard (content : String) (inc : Bool)
    (h : inc = false ∨ content = "") :
    parseUsageExamples content inc = [] := by
  rcases h with h | h
  · subst h; simp [parseUsageExamples]
  · subst h; cases inc <;> decide

/-- Witness for C7: includeExamples = false on content holding a usage
section, and empty content with includeExamples = true. -/
theorem parseUsageExamples_guard_witness :
    parseUsageExamples "## Usage\ntext" false = [] ∧
    parseUsageExamples "" true = [] :=
  ⟨parseUsageExamples_guard "## Usage\ntext" false (Or.inl rfl),
   parseUsageExamples_guard "" true (Or.inr rfl)⟩

/-- C8 counterexample: in "## Usage\ntext\n### Examples\ncode" a usage
section opens at depth 2 and the next header "### Examples" has depth 3 > 2,
so by the claim it should remain inside the open section, which should close
only at a header of depth ≤ 2 or at document end; instead the code closes
the first section at that deeper usage-intent header and starts a new one,
so the first returned section does not contain it. -/
theorem usage_section_nesting_counterexample :
    extractUsageSections "## Usage\ntext\n### Examples\ncode" =
      ["## Usage\ntext", "### Examples\ncode"] ∧
    isUsageHeaderLine "## Usage" = true ∧
    headerLevel "## Usage" = 2 ∧
    isHeaderLine "### Examples" = true ∧
    headerLevel "### Examples" = 3 ∧
    containsSub "## Usage\ntext" "### Examples" = false := by
  exact ⟨by decide, by decide, by decide, by decide, by decide, by decide⟩

/-- C8 (amended): while a usage section at depth d is open, a subsequent
header that is not itself usage-intent stays in the section when strictly
deeper and closes it exclusively when of depth ≤ d; a usage-intent header
of any depth instead closes the open section and opens a new one at its own
depth.  (Document end closes the section by the final flush of
extractUsageSections.) -/
theorem segStep_usage_section (st : SegState) (line : String)
    (hopen : st.inUsage = true) (hheader : isHeaderLine line = true) :
    (isUsageHeaderLine line = false → st.level < headerLevel line →
      segStep st line = { st with current := st.current ++ [line] }) ∧
    (isUsageHeaderLine line = false → headerLevel line ≤ st.level →
      segStep st line = ⟨flushCurrent st, [], false, st.level⟩) ∧
    (isUsageHeaderLine line = true →
      segStep st line = ⟨flushCurrent st, [line], true, headerLevel line⟩) := by
  refine ⟨fun hnu hlt => ?_, fun hnu hle => ?_, fun hu => ?_⟩
  · unfold segStep
    rw [if_pos hheader, if_neg (by simp [hnu]),
      if_neg (by simp [Nat.not_le.mpr hlt]), if_pos hopen]
  · unfold segStep
    rw [if_pos hheader, if_neg (by simp [hnu]), if_pos (by simp [hopen, hle])]
  · unfold segStep
    rw [if_pos hheader, if_pos hu]

/-- Witness for the amended C8 at a concrete open section of depth 2:
a deeper plain header is appended, a depth-2 header closes the section
exclusively, and a deeper usage-intent header starts a new section. -/
theorem segStep_usage_section_witness :
    segStep ⟨[], ["## Usage"], true, 2⟩ "### Deep" =
      { (⟨[], ["## Usage"], true, 2⟩ : SegState) with
        current := ["## Usage"] ++ ["### Deep"] } ∧
    segStep ⟨[], ["## Usage"], true, 2⟩ "## Next" =
      ⟨flushCurrent ⟨[], ["## Usage"], true, 2⟩, [], false, 2⟩ ∧
    segStep ⟨[], ["## Usage"], true, 2⟩ "### Examples" =
      ⟨flushCurrent ⟨[], ["## Usage"], true, 2⟩, ["### Examples"], true,
        headerLevel "### Examples"⟩ :=
  ⟨(segStep_usage_section ⟨[], ["## Usage"], true, 2⟩ "### Deep" rfl
      (by decide)).1 (by decide) (by decide),
   (segStep_usage_section ⟨[], ["## Usage"], true, 2⟩ "## Next" rfl
      (by decide)).2.1 (by decide) (by decide),
   (segStep_usage_section ⟨[], ["## Usage"], true, 2⟩ "### Examples" rfl
      (by decide)).2.2 (by decide)⟩

/-- Decidable equality for Except results, so that concrete runs of the
embedded fallible functions can be checked by decide. -/
instance exceptDecEq {ε α : Type} [DecidableEq ε] [DecidableEq α] :
    DecidableEq (Except ε α) := fun a b =>
  match a, b with
  | .error e1, .error e2 =>
    if h : e1 = e2 then isTrue (by rw [h])
    else isFalse (fun hc => h (Except.error.inj hc))
  | .ok v1, .ok v2 =>
    if h : v1 = v2 then isTrue (by rw [h])
    else isFalse (fun hc => h (Except.ok.inj hc))
  | .error _, .ok _ => isFalse (fun hc => Except.noConfusion hc)
  | .ok _, .error _ => isFalse (fun hc => Except.noConfusion hc)

/-! ## Validators (src/unnamed/part_004, lines 3-109) -/

/-- Character class [a-z0-9]. -/
def isLowerAlnum (c : Char) : Bool :=
  ('a' ≤ c && c ≤ 'z') || ('0' ≤ c && c ≤ '9')

/-- Character class [a-z0-9._-]. -/
def isNamePartMid (c : Char) : Bool :=
  isLowerAlnum c || c = '.' || c = '_' || c = '-'

/-- Embedding of /^[a-z0-9]([a-z0-9._-]*[a-z0-9])?$/.test(part). -/
def namePartRegexOk : List Char → Bool
  | [] => false
  | c :: rest =>
    match rest.reverse with
    | [] => isLowerAlnum c
    | lastC :: midRev =>
      isLowerAlnum c && isLowerAlnum lastC && midRev.all isNamePartMid

/-- Character class [._-]. -/
def isSpecialChar (c : Char) : Bool := c = '.' || c = '_' || c = '-'

/-- Embedding of /[._-]{2,}/.test(part). -/
def hasConsecSpecial : List Char → Bool
  | c1 :: c2 :: rest =>
    (isSpecialChar c1 && isSpecialChar c2) || hasConsecSpecial (c2 :: rest)
  | _ => false

/-- Embedding of /:\d+/.test(s): a colon immediately followed by a digit. -/
def hasColonDigit : List Char → Bool
  | ':' :: c :: rest => c.isDigit || hasColonDigit (c :: rest)
  | _ :: rest => hasColonDigit rest
  | [] => false

/-- Per-part checks of validateImageName, in source order: character-class
regex, then length between 2 and 255, then no consecutive special chars. -/
def validatePart (part : List Char) : Except DomainErr Unit :=
  if !namePartRegexOk part then
    .error (.generic "Image name parts must start and end with lowercase letters or numbers, and can contain dots, underscores, and hyphens. Example: \"nginx\" or \"library/postgres\"" "INVALID_IMAGE_NAME" none)
  else if part.length < 2 || part.length > 255 then
    .error (.generic "Image name parts must be between 2 and 255 characters. Example: \"db\" (2 chars) or \"very-long-service-name\" (longer)" "INVALID_IMAGE_NAME" none)
  else if hasConsecSpecial part then
    .error (.generic "Image name cannot contain consecutive dots, underscores, or hyphens. Example: use \"my-app\" not \"my--app\"" "INVALID_IMAGE_NAME" none)
  else .ok ()

/-- for (const part of parts) validatePart(part). -/
def validateParts : List (List Char) → Except DomainErr Unit
  | [] => .ok ()
  | p :: rest =>
    match validatePart p with
    | .error e => .error e
    | .ok () => validateParts rest

/-- validateImageName from src/unnamed/part_004: DockerHubMcpError throws
become DomainErr.generic values with code INVALID_IMAGE_NAME. -/
def validateImageName (imageName : String) : Except DomainErr Unit :=
  if imageName.data.isEmpty then
    .error (.generic "Image name is required and must be a string" "INVALID_IMAGE_NAME" none)
  else
    let trimmed := trimChars imageName.data
    if trimmed.isEmpty then
      .error (.generic "Image name cannot be empty" "INVALID_IMAGE_NAME" none)
    else
      let nameWithoutTag := (splitOnChar ':' trimmed).headD []
      if nameWithoutTag.contains '.' || hasColonDigit nameWithoutTag then
        .error (.generic "Registry host not supported, use Docker Hub image names only" "INVALID_IMAGE_NAME" none)
      else
        let parts := splitOnChar '/' nameWithoutTag
        if parts.length > 2 then
          .error (.generic "Invalid image name format. Use: [namespace/]name" "INVALID_IMAGE_NAME" none)
        else validateParts parts

/-- Character class [a-zA-Z0-9]. -/
def isAlnumAscii (c : Char) : Bool :=
  ('a' ≤ c && c ≤ 'z') || ('A' ≤ c && c ≤ 'Z') || ('0' ≤ c && c ≤ '9')

/-- Embedding of /^[a-zA-Z0-9][a-zA-Z0-9._-]*$/.test(tag). -/
def tagRegexOk : List Char → Bool
  | [] => false
  | c :: rest =>
    isAlnumAscii c && rest.all (fun x => isAlnumAscii x || x = '.' || x = '_' || x = '-')

/-- validateTag from src/unnamed/part_004 (DockerHubMcpError with code
INVALID_TAG). -/
def validateTag (tag : String) : Except DomainErr Unit :=
  if tag.data.isEmpty then
    .error (.generic "Tag must be a string" "INVALID_TAG" none)
  else
    let trimmed := trimChars tag.data
    if trimmed.isEmpty then
      .error (.generic "Tag cannot be empty" "INVALID_TAG" none)
    else if trimmed.length > 128 then
      .error (.generic "Tag cannot exceed 128 characters" "INVALID_TAG" none)
    else if !tagRegexOk trimmed then
      .error (.generic "Tag must start with alphanumeric character and can contain letters, numbers, dots, dashes, and underscores" "INVALID_TAG" none)
    else .ok ()

/-- parseImageName from src/unnamed/part_004: validate, strip the tag, and
split into (namespace, name) with namespace defaulting to library. -/
def parseImageName (fullName : String) : Except DomainErr (String × String) :=
  match validateImageName fullName with
  | .error e => .error e
  | .ok () =>
    let nameWithoutTag := (splitOnChar ':' fullName.data).headD []
    match splitOnChar '/' nameWithoutTag with
    | [p] => .ok ("library", String.mk p)
    | p0 :: p1 :: _ => .ok (String.mk p0, String.mk p1)
    | [] => .ok ("library", "")

/-! ## cleanMarkdown (src/unnamed/part_007, lines 236-259) -/

/-- Split at the first occurrence of a separator character:
(before, after), or none when absent. -/
def splitOnFirst (sep : Char) : List Char → Option (List Char × List Char)
  | [] => none
  | c :: rest =>
    if c = sep then some ([], rest)
    else
      match splitOnFirst sep rest with
      | some (a, b) => some (c :: a, b)
      | none => none

/-- One badge match /!\[([^\]]*)\]\([^)]+\)/ at the head of the input:
"![", alt text up to the first ], "](", at least one non-) character, ")".
Returns (alt, rest after the match). -/
def tryBadgeAt : List Char → Option (List Char × List Char)
  | '!' :: '[' :: rest =>
    match splitOnFirst ']' rest with
    | some (alt, after1) =>
      match after1 with
      | '(' :: rest2 =>
        match splitOnFirst ')' rest2 with
        | some (url, after2) => if url.isEmpty then none else some (alt, after2)
        | none => none
      | _ => none
    | none => none
  | _ => none

/-- Fuelled global replace of badges: the callback keeps the alt text only
when longer than 3 characters.  Every step consumes at least one input
character, so fuel = input length never runs out. -/
def replaceBadgesAux : Nat → List Char → List Char
  | 0, _ => []
  | _ + 1, [] => []
  | fuel + 1, c :: rest =>
    match tryBadgeAt (c :: rest) with
    | some (alt, after) =>
      (if alt.length > 3 then alt else []) ++ replaceBadgesAux fuel after
    | none => c :: replaceBadgesAux fuel rest

/-- content.replace(/!\[([^\]]*)\]\([^)]+\)/g, cb). -/
def replaceBadges (l : List Char) : List Char := replaceBadgesAux l.length l

/-- The path starts with http:// or https:// (the negative lookahead of the
relative-link regex). -/
def isHttpAbs (url : List Char) : Bool :=
  "http://".data.isPrefixOf url || "https://".data.isPrefixOf url

/-- One relative-link match /\[([^\]]+)\]\((?!https?:\/\/)([^)]+)\)/ at the
head of the input; returns (link text, rest after the match). -/
def tryLinkAt : List Char → Option (List Char × List Char)
  | '[' :: rest =>
    match splitOnFirst ']' rest with
    | some (text, after1) =>
      if text.isEmpty then none
      else
        match after1 with
        | '(' :: rest2 =>
          match splitOnFirst ')' rest2 with
          | some (url, after2) =>
            if url.isEmpty then none
            else if isHttpAbs url then none
            else some (text, after2)
          | none => none
        | _ => none
    | none => none
  | _ => none

/-- Fuelled global replace of relative links with their bare text. -/
def replaceLinksAux : Nat → List Char → List Char
  | 0, _ => []
  | _ + 1, [] => []
  | fuel + 1, c :: rest =>
    match tryLinkAt (c :: rest) with
    | some (text, after) => text ++ replaceLinksAux fuel after
    | none => c :: replaceLinksAux fuel rest

/-- content.replace(/\[([^\]]+)\]\((?!https?:\/\/)([^)]+)\)/g, bare text). -/
def replaceLinks (l : List Char) : List Char := replaceLinksAux l.length l

/-- Emit a run of pending newlines, clamped to two when three or more
accumulated (the /\n{3,}/g → two-newline rule). -/
def newlinesFor (pending : Nat) : List Char :=
  if pending ≥ 3 then ['\n', '\n'] else List.replicate pending '\n'

/-- Worker for collapseNewlines, carrying the length of the current
newline run. -/
def collapseNLAux : Nat → List Char → List Char
  | pending, [] => newlinesFor pending
  | pending, c :: rest =>
    if c = '\n' then collapseNLAux (pending + 1) rest
    else newlinesFor pending ++ (c :: collapseNLAux 0 rest)

/-- cleaned.replace(/\n{3,}/g, two newlines). -/
def collapseNewlines (l : List Char) : List Char := collapseNLAux 0 l

/-- ReadmeParser.cleanMarkdown: strip badges (keeping long alt texts),
flatten relative links to their text, collapse 3+ newlines to 2, and trim;
the embedded pipeline is total, so the catch-and-return-unchanged branch of
the source is unreachable. -/
def cleanMarkdown (content : String) : String :=
  String.mk (trimChars (collapseNewlines (replaceLinks (replaceBadges content.data))))

/-! ## Response types and tool-level operations
(src/src/tools/get-package-readme.ts, src/src/tools/get-package-info.ts)

The DockerHubApi network methods are collaborator calls at the interface
boundary of spec §6; they are supplied to the tools as oracle results, and
every oracle invocation is counted as one registry request.  A nullable
source string field is modelled as a String whose JS truthiness test is
emptiness; the source field named namespace is called nspace here and the
response field named exists is called exists_flag (both are Lean
keywords). -/

/-- DockerHubRepository fields used by the tools (src/src/types/index.ts);
categories are represented by their names. -/
structure DockerHubRepository where
  user : String
  name : String
  nspace : String
  description : String
  full_description : String
  star_count : Nat
  pull_count : Nat
  last_updated : String
  categories : Option (List String)
  deriving DecidableEq, Repr

/-- Tag detail data used by the readme tool: the images array with each
image as (architecture, os). -/
structure TagDetails where
  images : List (String × String)
  deriving DecidableEq, Repr

/-- InstallationInfo of src/src/types/index.ts. -/
structure InstallationInfo where
  pull : String
  run : Option String
  compose : Option String
  deriving DecidableEq, Repr

/-- PackageBasicInfo of src/src/types/index.ts (namespace → nspace). -/
structure PackageBasicInfo where
  name : String
  version : String
  description : String
  nspace : String
  full_name : String
  homepage : Option String
  dockerfile : Option String
  license : Option String
  author : String
  keywords : List String
  architecture : List String
  os : List String
  deriving DecidableEq, Repr

/-- PackageReadmeResponse of src/src/types/index.ts (exists → exists_flag;
repository is always absent since inferGitHubRepository returns null). -/
structure PackageReadmeResponse where
  package_name : String
  version : String
  description : String
  readme_content : String
  usage_examples : List UsageExample
  installation : InstallationInfo
  basic_info : PackageBasicInfo
  repository : Option Unit
  exists_flag : Bool
  deriving DecidableEq, Repr

/-- DownloadStats of src/src/types/index.ts. -/
structure DownloadStats where
  pull_count : Nat
  star_count : Nat
  last_updated : String
  deriving DecidableEq, Repr

/-- PackageInfoResponse as assembled in src/src/tools/get-package-info.ts
(exists → exists_flag; dependency records as association lists). -/
structure PackageInfoResponse where
  package_name : String
  latest_version : String
  description : String
  author : String
  license : String
  keywords : List String
  dependencies : List (String × String)
  dev_dependencies : List (String × String)
  download_stats : DownloadStats
  repository : Option Unit
  exists_flag : Bool
  deriving DecidableEq, Repr

/-- Modelled from the spec: createCacheKey.imageInfo of the missing cache
service — img_info:name:tag per §6 and the cache tests. -/
def cacheKeyImageInfo (imageName tag : String) : String :=
  "img_info:" ++ imageName ++ ":" ++ tag

/-- Modelled from the spec: createCacheKey.imageReadme of the missing cache
service — img_readme:name:tag per §6 and the cache tests. -/
def cacheKeyImageReadme (imageName tag : String) : String :=
  "img_readme:" ++ imageName ++ ":" ++ tag

/-- [...new Set(l)]: deduplicate keeping the first occurrence order. -/
def dedupStringsAux : List String → List String → List String
  | [], _ => []
  | s :: rest, seen =>
    if seen.contains s then dedupStringsAux rest seen
    else s :: dedupStringsAux rest (s :: seen)

/-- [...new Set(l)]. -/
def dedupStrings (l : List String) : List String := dedupStringsAux l []

/-- commonServices list of isCommonService. -/
def commonServices : List String :=
  ["nginx", "apache", "httpd", "mysql", "postgres", "postgresql",
   "redis", "mongodb", "mongo", "node", "python", "ubuntu",
   "alpine", "debian", "centos", "jenkins", "wordpress"]

/-- isCommonService from src/src/tools/get-package-readme.ts. -/
def isCommonService (name : String) : Bool :=
  commonServices.contains (lowerStr name)

/-- fullName.split(sep).pop() with an orElse default. -/
def lastSegmentOr (s : String) (sep : Char) (dflt : String) : String :=
  let p := String.mk (((splitOnChar sep s.data).getLast?).getD [])
  if p.data.isEmpty then dflt else p

/-- generateComposeExample from src/src/tools/get-package-readme.ts. -/
def generateComposeExample (fullName version : String) : String :=
  let serviceName := lastSegmentOr fullName '/' "app"
  "version: \x273.8\x27\nservices:\n  " ++ serviceName ++
    ":\n    image: " ++ fullName ++ ":" ++ version ++
    "\n    ports:\n      - \"8080:80\""

/-- Observable outcome of one tool call: the returned/thrown value, the
final cache state, and how many registry (DockerHubApi) calls were made. -/
structure ToolResult (V : Type) where
  result : Except DomainErr V
  cache : CacheState V
  apiCalls : Nat
  deriving Repr

/-- Oracle for the DockerHubApi calls getPackageReadme can make:
getRepository, validateTagExists(version) and getTagDetails(version)
(spec §6 collaborator interface). -/
structure ReadmeOracle where
  getRepository : Except DomainErr DockerHubRepository
  validateTagExists : String → Except DomainErr Bool
  getTagDetails : String → Except DomainErr (Option TagDetails)

/-- The exists:false response getPackageReadme assembles when the
repository lookup failed with statusCode 404
(src/src/tools/get-package-readme.ts lines 59-86). -/
def notFoundReadmeResponse (package_name version nspace fullName : String) :
    PackageReadmeResponse :=
  { package_name := package_name
    version := version
    description := ""
    readme_content := ""
    usage_examples := []
    installation :=
      { pull := "docker pull " ++ package_name ++ ":" ++ version,
        run := none, compose := none }
    basic_info :=
      { name := lastSegmentOr package_name '/' package_name
        version := version
        description := ""
        nspace := nspace
        full_name := fullName
        homepage := none, dockerfile := none, license := none
        author := ""
        keywords := [], architecture := [], os := [] }
    repository := none
    exists_flag := false }

/-- getPackageReadme from src/src/tools/get-package-readme.ts: validate,
parse the image name, consult the cache, then check existence via
getRepository — a 404 yields the cached exists:false response — and on the
success path verify the tag, pull the README from the repository
full_description (the GitHub fallback is unreachable because
inferGitHubRepository always returns null), extract usage examples, and
assemble, cache and return the full response. -/
def getPackageReadme (package_name : String) (versionOpt : Option String)
    (includeExamplesOpt : Option Bool) (api : ReadmeOracle)
    (st : CacheState PackageReadmeResponse) : ToolResult PackageReadmeResponse :=
  let version := versionOpt.getD "latest"
  let include_examples := includeExamplesOpt.getD true
  match validateImageName package_name with
  | .error e => ⟨.error e, st, 0⟩
  | .ok () =>
  match (if version = "latest" then Except.ok () else validateTag version) with
  | .error e => ⟨.error e, st, 0⟩
  | .ok () =>
  match parseImageName package_name with
  | .error e => ⟨.error e, st, 0⟩
  | .ok (nspace, name) =>
    let fullName := nspace ++ "/" ++ name
    let cacheKey := cacheKeyImageReadme fullName version
    match cacheGet st cacheKey with
    | some cached => ⟨.ok cached, st, 0⟩
    | none =>
      match api.getRepository with
      | .error err =>
        if errStatusCode err = some 404 then
          let resp := notFoundReadmeResponse package_name version nspace fullName
          ⟨.ok resp, cacheSet st cacheKey resp none, 1⟩
        else ⟨.error err, st, 1⟩
      | .ok repo =>
        let tagCheck : Except DomainErr Unit × Nat :=
          if version = "latest" then (Except.ok (), 1)
          else
            match api.validateTagExists version with
            | .error e => (.error e, 2)
            | .ok true => (.ok (), 2)
            | .ok false =>
              (.error (.generic ("Tag \x27" ++ version ++
                "\x27 not found for image \x27" ++ fullName ++ "\x27") "" none), 2)
        match tagCheck with
        | (.error e, n) => ⟨.error e, st, n⟩
        | (.ok (), n) =>
          let readmeContent :=
            if repo.full_description.data.isEmpty then "" else repo.full_description
          let cleanedReadme := cleanMarkdown readmeContent
          let usageExamples := parseUsageExamples readmeContent include_examples
          let installation : InstallationInfo :=
            { pull := "docker pull " ++ fullName ++ ":" ++ version
              run := some ("docker run " ++ fullName ++ ":" ++ version)
              compose :=
                if isCommonService name then
                  some (generateComposeExample fullName version)
                else none }
          match api.getTagDetails version with
          | .error e => ⟨.error e, st, n + 1⟩
          | .ok tagDetails =>
            let resp : PackageReadmeResponse :=
              { package_name := package_name
                version := version
                description :=
                  if repo.description.data.isEmpty then "No description available"
                  else repo.description
                readme_content := cleanedReadme
                usage_examples := usageExamples
                installation := installation
                basic_info :=
                  { name := name
                    version := version
                    description :=
                      if repo.description.data.isEmpty then "No description available"
                      else repo.description
                    nspace := nspace
                    full_name := fullName
                    homepage := none, dockerfile := none, license := none
                    author := repo.user
                    keywords := repo.categories.getD []
                    architecture :=
                      dedupStrings ((tagDetails.map
                        (fun td => td.images.map Prod.fst)).getD [])
                    os :=
                      dedupStrings ((tagDetails.map
                        (fun td => td.images.map Prod.snd)).getD []) }
                repository := none
                exists_flag := true }
            ⟨.ok resp, cacheSet st cacheKey resp none, n + 1⟩

/-- Oracle for the DockerHubApi calls getPackageInfo can make:
getRepository and getTags (the tag names of the first page). -/
structure InfoOracle where
  getRepository : Except DomainErr DockerHubRepository
  getTags : Except DomainErr (List String)

/-- The exists:false response getPackageInfo assembles when the repository
lookup failed with statusCode 404
(src/src/tools/get-package-info.ts lines 52-74). -/
def notFoundInfoResponse (package_name : String) : PackageInfoResponse :=
  { package_name := package_name
    latest_version := ""
    description := ""
    author := ""
    license := ""
    keywords := []
    dependencies := []
    dev_dependencies := []
    download_stats := { pull_count := 0, star_count := 0, last_updated := "" }
    repository := none
    exists_flag := false }

/-- getPackageInfo from src/src/tools/get-package-info.ts: validate and
parse the image name, consult the cache (key img_info:fullName:info), check
existence via getRepository — a 404 yields the exists:false response cached
with a 300000 ms TTL — and on the success path map the available tags into
the dependencies record (falling back to latest:latest when the tags call
fails), determine the latest version, and assemble, cache and return the
response. -/
def getPackageInfo (package_name : String) (includeDepsOpt : Option Bool)
    (api : InfoOracle) (st : CacheState PackageInfoResponse) :
    ToolResult PackageInfoResponse :=
  let include_dependencies := includeDepsOpt.getD true
  match validateImageName package_name with
  | .error e => ⟨.error e, st, 0⟩
  | .ok () =>
  match parseImageName package_name with
  | .error e => ⟨.error e, st, 0⟩
  | .ok (nspace, name) =>
    let fullName := nspace ++ "/" ++ name
    let cacheKey := cacheKeyImageInfo fullName "info"
    match cacheGet st cacheKey with
    | some cached => ⟨.ok cached, st, 0⟩
    | none =>
      match api.getRepository with
      | .error err =>
        if errStatusCode err = some 404 then
          let resp := notFoundInfoResponse package_name
          ⟨.ok resp, cacheSet st cacheKey resp (some 300000), 1⟩
        else ⟨.error err, st, 1⟩
      | .ok repo =>
        let deps : Option (List (String × String)) × Nat :=
          if include_dependencies then
            match api.getTags with
            | .error _ => (some [("latest", "latest")], 2)
            | .ok tags =>
              (some ((dedupStrings tags).map (fun t => (t, "latest"))), 2)
          else (none, 1)
        let latest_version :=
          match deps.1 with
          | some d =>
            if (d.map Prod.fst).contains "latest" then "latest"
            else (d.map Prod.fst).headD "latest"
          | none => "latest"
        let resp : PackageInfoResponse :=
          { package_name := package_name
            latest_version := latest_version
            description :=
              if repo.description.data.isEmpty then "No description available"
              else repo.description
            author := repo.user
            license := ""
            keywords := repo.categories.getD []
            dependencies := (deps.1).getD []
            dev_dependencies := []
            download_stats :=
              { pull_count := repo.pull_count
                star_count := repo.star_count
                last_updated := repo.last_updated }
            repository := none
            exists_flag := true }
        ⟨.ok resp, cacheSet st cacheKey resp (some 300000), deps.2⟩

theorem cacheGet_cacheSet_fresh {V : Type} (st : CacheState V) (k : String)
    (v : V) (ttl : Option Nat) (t2 : Nat)
    (hfresh : t2 < st.now + ttl.getD st.defaultTtl) :
    cacheGet { cacheSet st k v ttl with now := t2 } k = some v := by
  simp [cacheGet, cacheSet, List.find?, hfresh]

theorem readme_version_check (versionOpt : Option String)
    (hver : versionOpt.getD "latest" = "latest" ∨
      validateTag (versionOpt.getD "latest") = .ok ()) :
    (if versionOpt.getD "latest" = "latest" then Except.ok ()
     else validateTag (versionOpt.getD "latest")) = Except.ok () := by
  by_cases hl : versionOpt.getD "latest" = "latest"
  · simp [hl]
  · rcases hver with hv | hv
    · exact absurd hv hl
    · simp [hl, hv]

theorem readme404_eq (package_name : String) (versionOpt : Option String)
    (incOpt : Option Bool) (api : ReadmeOracle)
    (st : CacheState PackageReadmeResponse) (ns nm : String) (err : DomainErr)
    (hvalid : validateImageName package_name = .ok ())
    (hver : versionOpt.getD "latest" = "latest" ∨
      validateTag (versionOpt.getD "latest") = .ok ())
    (hparse : parseImageName package_name = .ok (ns, nm))
    (hmiss : cacheGet st
      (cacheKeyImageReadme (ns ++ "/" ++ nm) (versionOpt.getD "latest")) = none)
    (hrepo : api.getRepository = .error err)
    (h404 : errStatusCode err = some 404) :
    getPackageReadme package_name versionOpt incOpt api st =
      ⟨.ok (notFoundReadmeResponse package_name (versionOpt.getD "latest") ns
          (ns ++ "/" ++ nm)),
       cacheSet st (cacheKeyImageReadme (ns ++ "/" ++ nm) (versionOpt.getD "latest"))
         (notFoundReadmeResponse package_name (versionOpt.getD "latest") ns
           (ns ++ "/" ++ nm)) none,
       1⟩ := by
  have hver2 := readme_version_check versionOpt hver
  unfold getPackageReadme
  simp only [hvalid, hver2, hparse, hmiss, hrepo, h404, if_pos]

theorem readme_cache_hit (package_name : String) (versionOpt : Option String)
    (incOpt : Option Bool) (api : ReadmeOracle)
    (st : CacheState PackageReadmeResponse) (ns nm : String)
    (r : PackageReadmeResponse)
    (hvalid : validateImageName package_name = .ok ())
    (hver : versionOpt.getD "latest" = "latest" ∨
      validateTag (versionOpt.getD "latest") = .ok ())
    (hparse : parseImageName package_name = .ok (ns, nm))
    (hhit : cacheGet st
      (cacheKeyImageReadme (ns ++ "/" ++ nm) (versionOpt.getD "latest")) = some r) :
    getPackageReadme package_name versionOpt incOpt api st = ⟨.ok r, st, 0⟩ := by
  have hver2 := readme_version_check versionOpt hver
  unfold getPackageReadme
  simp only [hvalid, hver2, hparse, hhit]

theorem info404_eq (package_name : String) (depsOpt : Option Bool)
    (api : InfoOracle) (st : CacheState PackageInfoResponse) (ns nm : String)
    (err : DomainErr)
    (hvalid : validateImageName package_name = .ok ())
    (hparse : parseImageName package_name = .ok (ns, nm))
    (hmiss : cacheGet st (cacheKeyImageInfo (ns ++ "/" ++ nm) "info") = none)
    (hrepo : api.getRepository = .error err)
    (h404 : errStatusCode err = some 404) :
    getPackageInfo package_name depsOpt api st =
      ⟨.ok (notFoundInfoResponse package_name),
       cacheSet st (cacheKeyImageInfo (ns ++ "/" ++ nm) "info")
         (notFoundInfoResponse package_name) (some 300000),
       1⟩ := by
  unfold getPackageInfo
  simp only [hvalid, hparse, hmiss, hrepo, h404, if_pos]

theorem info_cache_hit (package_name : String) (depsOpt : Option Bool)
    (api : InfoOracle) (st : CacheState PackageInfoResponse) (ns nm : String)
    (r : PackageInfoResponse)
    (hvalid : validateImageName package_name = .ok ())
    (hparse : parseImageName package_name = .ok (ns, nm))
    (hhit : cacheGet st (cacheKeyImageInfo (ns ++ "/" ++ nm) "info") = some r) :
    getPackageInfo package_name depsOpt api st = ⟨.ok r, st, 0⟩ := by
  unfold getPackageInfo
  simp only [hvalid, hparse, hhit]

/-- C9: a valid get_readme request whose repository lookup fails with a
404/NotFound error returns normally (Except.ok, after exactly one registry
call) with exists = false, empty description and readme content, and an
empty usage example list; the response is stored in the cache. -/
theorem getPackageReadme_not_found (package_name : String)
    (versionOpt : Option String) (incOpt : Option Bool) (api : ReadmeOracle)
    (st : CacheState PackageReadmeResponse) (ns nm : String) (err : DomainErr)
    (hvalid : validateImageName package_name = .ok ())
    (hver : versionOpt.getD "latest" = "latest" ∨
      validateTag (versionOpt.getD "latest") = .ok ())
    (hparse : parseImageName package_name = .ok (ns, nm))
    (hmiss : cacheGet st
      (cacheKeyImageReadme (ns ++ "/" ++ nm) (versionOpt.getD "latest")) = none)
    (hrepo : api.getRepository = .error err)
    (h404 : errStatusCode err = some 404) :
    getPackageReadme package_name versionOpt incOpt api st =
      ⟨.ok (notFoundReadmeResponse package_name (versionOpt.getD "latest") ns
          (ns ++ "/" ++ nm)),
       cacheSet st (cacheKeyImageReadme (ns ++ "/" ++ nm) (versionOpt.getD "latest"))
         (notFoundReadmeResponse package_name (versionOpt.getD "latest") ns
           (ns ++ "/" ++ nm)) none,
       1⟩ ∧
    (notFoundReadmeResponse package_name (versionOpt.getD "latest") ns
      (ns ++ "/" ++ nm)).exists_flag = false ∧
    (notFoundReadmeResponse package_name (versionOpt.getD "latest") ns
      (ns ++ "/" ++ nm)).description = "" ∧
    (notFoundReadmeResponse package_name (versionOpt.getD "latest") ns
      (ns ++ "/" ++ nm)).readme_content = "" ∧
    (notFoundReadmeResponse package_name (versionOpt.getD "latest") ns
      (ns ++ "/" ++ nm)).usage_examples = [] :=
  ⟨readme404_eq package_name versionOpt incOpt api st ns nm err
    hvalid hver hparse hmiss hrepo h404, rfl, rfl, rfl, rfl⟩

/-- Witness for C9: get_readme for "nginx" (default version and examples) on
an empty cache when the repository lookup fails with ImageNotFoundError. -/
theorem getPackageReadme_not_found_witness :
    getPackageReadme "nginx" none none
        ⟨.error (.imageNotFound "library/nginx"), fun _ => .ok true, fun _ => .ok none⟩
        ⟨[], 3600000, 0⟩ =
      ⟨.ok (notFoundReadmeResponse "nginx" "latest" "library" "library/nginx"),
       cacheSet ⟨[], 3600000, 0⟩ (cacheKeyImageReadme "library/nginx" "latest")
         (notFoundReadmeResponse "nginx" "latest" "library" "library/nginx") none,
       1⟩ ∧
    (notFoundReadmeResponse "nginx" "latest" "library" "library/nginx").exists_flag
      = false :=
  ⟨(getPackageReadme_not_found "nginx" none none
      ⟨.error (.imageNotFound "library/nginx"), fun _ => .ok true, fun _ => .ok none⟩
      ⟨[], 3600000, 0⟩ "library" "nginx" (.imageNotFound "library/nginx")
      (by decide) (Or.inl rfl) (by decide) (by decide) rfl rfl).1,
   rfl⟩

/-- C10: the exists:false response produced for a nonexistent image is
itself stored under the operation cache key, and a repeated call with the
same arguments before expiry (any second oracle, any later time within the
TTL) returns that cached exists:false response with zero registry
requests — for getPackageReadme and for getPackageInfo. -/
theorem negative_response_cached :
    (∀ (package_name : String) (versionOpt : Option String)
       (incOpt incOpt2 : Option Bool) (api api2 : ReadmeOracle)
       (st : CacheState PackageReadmeResponse) (ns nm : String)
       (err : DomainErr) (t2 : Nat),
      validateImageName package_name = .ok () →
      (versionOpt.getD "latest" = "latest" ∨
        validateTag (versionOpt.getD "latest") = .ok ()) →
      parseImageName package_name = .ok (ns, nm) →
      cacheGet st
        (cacheKeyImageReadme (ns ++ "/" ++ nm) (versionOpt.getD "latest")) = none →
      api.getRepository = .error err →
      errStatusCode err = some 404 →
      t2 < st.now + st.defaultTtl →
      cacheGet
          { (getPackageReadme package_name versionOpt incOpt api st).cache with
            now := t2 }
          (cacheKeyImageReadme (ns ++ "/" ++ nm) (versionOpt.getD "latest")) =
        some (notFoundReadmeResponse package_name (versionOpt.getD "latest") ns
          (ns ++ "/" ++ nm)) ∧
      getPackageReadme package_name versionOpt incOpt2 api2
          { (getPackageReadme package_name versionOpt incOpt api st).cache with
            now := t2 } =
        ⟨.ok (notFoundReadmeResponse package_name (versionOpt.getD "latest") ns
            (ns ++ "/" ++ nm)),
         { (getPackageReadme package_name versionOpt incOpt api st).cache with
           now := t2 },
         0⟩) ∧
    (∀ (package_name : String) (depsOpt depsOpt2 : Option Bool)
       (api api2 : InfoOracle) (st : CacheState PackageInfoResponse)
       (ns nm : String) (err : DomainErr) (t2 : Nat),
      validateImageName package_name = .ok () →
      parseImageName package_name = .ok (ns, nm) →
      cacheGet st (cacheKeyImageInfo (ns ++ "/" ++ nm) "info") = none →
      api.getRepository = .error err →
      errStatusCode err = some 404 →
      t2 < st.now + 300000 →
      cacheGet
          { (getPackageInfo package_name depsOpt api st).cache with now := t2 }
          (cacheKeyImageInfo (ns ++ "/" ++ nm) "info") =
        some (notFoundInfoResponse package_name) ∧
      getPackageInfo package_name depsOpt2 api2
          { (getPackageInfo package_name depsOpt api st).cache with now := t2 } =
        ⟨.ok (notFoundInfoResponse package_name),
         { (getPackageInfo package_name depsOpt api st).cache with now := t2 },
         0⟩) := by
  constructor
  · intro package_name versionOpt incOpt incOpt2 api api2 st ns nm err t2
      hvalid hver hparse hmiss hrepo h404 hfresh
    have heq := readme404_eq package_name versionOpt incOpt api st ns nm err
      hvalid hver hparse hmiss hrepo h404
    have hstored :
        cacheGet
          { (getPackageReadme package_name versionOpt incOpt api st).cache with
            now := t2 }
          (cacheKeyImageReadme (ns ++ "/" ++ nm) (versionOpt.getD "latest")) =
        some (notFoundReadmeResponse package_name (versionOpt.getD "latest") ns
          (ns ++ "/" ++ nm)) := by
      rw [heq]
      exact cacheGet_cacheSet_fresh st _ _ none t2 hfresh
    exact ⟨hstored,
      readme_cache_hit package_name versionOpt incOpt2 api2 _ ns nm _
        hvalid hver hparse hstored⟩
  · intro package_name depsOpt depsOpt2 api api2 st ns nm err t2
      hvalid hparse hmiss hrepo h404 hfresh
    have heq := info404_eq package_name depsOpt api st ns nm err
      hvalid hparse hmiss hrepo h404
    have hstored :
        cacheGet
          { (getPackageInfo package_name depsOpt api st).cache with now := t2 }
          (cacheKeyImageInfo (ns ++ "/" ++ nm) "info") =
        some (notFoundInfoResponse package_name) := by
      rw [heq]
      exact cacheGet_cacheSet_fresh st _ _ (some 300000) t2 hfresh
    exact ⟨hstored,
      info_cache_hit package_name depsOpt2 api2 _ ns nm _
        hvalid hparse hstored⟩

/-- Witness for C10: both tools at "nginx" on an empty cache with a 404
repository lookup; the second call (fresh oracle succeeding for readme,
failing differently for info) at the same time returns the cached
exists:false response with zero registry calls. -/
theorem negative_response_cached_witness :
    getPackageReadme "nginx" none none
        ⟨.error (.network "boom"), fun _ => .ok true, fun _ => .ok none⟩
        { (getPackageReadme "nginx" none none
            ⟨.error (.imageNotFound "library/nginx"), fun _ => .ok true,
              fun _ => .ok none⟩
            ⟨[], 3600000, 0⟩).cache with now := 0 } =
      ⟨.ok (notFoundReadmeResponse "nginx" "latest" "library" "library/nginx"),
       { (getPackageReadme "nginx" none none
           ⟨.error (.imageNotFound "library/nginx"), fun _ => .ok true,
             fun _ => .ok none⟩
           ⟨[], 3600000, 0⟩).cache with now := 0 },
       0⟩ ∧
    getPackageInfo "nginx" none
        ⟨.error (.network "boom"), .ok []⟩
        { (getPackageInfo "nginx" none
            ⟨.error (.imageNotFound "library/nginx"), .ok []⟩
            ⟨[], 3600000, 0⟩).cache with now := 0 } =
      ⟨.ok (notFoundInfoResponse "nginx"),
       { (getPackageInfo "nginx" none
           ⟨.error (.imageNotFound "library/nginx"), .ok []⟩
           ⟨[], 3600000, 0⟩).cache with now := 0 },
       0⟩ :=
  ⟨(negative_response_cached.1 "nginx" none none none
      ⟨.error (.imageNotFound "library/nginx"), fun _ => .ok true, fun _ => .ok none⟩
      ⟨.error (.network "boom"), fun _ => .ok true, fun _ => .ok none⟩
      ⟨[], 3600000, 0⟩ "library" "nginx" (.imageNotFound "library/nginx") 0
      (by decide) (Or.inl rfl) (by decide) (by decide) rfl rfl (by decide)).2,
   (negative_response_cached.2 "nginx" none none
      ⟨.error (.imageNotFound "library/nginx"), .ok []⟩
      ⟨.error (.network "boom"), .ok []⟩
      ⟨[], 3600000, 0⟩ "library" "nginx" (.imageNotFound "library/nginx") 0
      (by decide) (by decide) (by decide) rfl rfl (by decide)).2⟩

end DockerHubMcp
